import Mathlib

/-!
Shallow embedding of the seat-apportionment core of the
`simulador-elecciones-pba` repository.

The embedding covers:
* `src/utils/cuociente.py` and `src/utils/reglas_electorales.py`
  (`repartir_bancas`, identical per-section algorithm, the former adds a
  final `sort_values(["seccion", "lista"])`),
* `src/utils/calculos.py` (`_generar_filas_para_camara`),
* `src/utils/simulacion.py` (`medoid`).

DataFrames are modelled as lists of rows.  `pandas.groupby("seccion")`
sorts the group keys ascending and keeps the original row order inside a
group; row labels (the original integer index) are kept in the `pos`
field, since `sort_values`, `head`, `loc` and `idxmax` all operate on
labels.  `sort_values` on two key columns uses a stable lexsort, so ties
keep the original label order: we encode this by adding `pos` as the last
component of the comparison key, which makes the order strict and total.
Section and alliance names are modelled as natural numbers (their string
identity never matters for the claims, only equality).  Machine integers
are modelled as `Nat`/`Int` (vote counts are non-negative; seat counts
can be driven negative by the final top-up, hence `Int`).

The `while` loop of the "Art. 110" fallback is modelled with explicit
fuel: `none` means the loop has not terminated within `fuel` iterations;
a result independent of sufficiently large fuel is the value of the
Python function, and `(∀ fuel, … = none)` models divergence.
-/

/-- One input row of the DataFrame handed to `repartir_bancas`
(columns `seccion`, `lista`, `votos`, `cargos`). -/
structure Fila where
  seccion : Nat
  lista   : Nat
  votos   : Nat
  cargos  : Nat
deriving Repr, DecidableEq

/-- One row of a per-section working frame (`grupo`) inside
`repartir_bancas`: the original row label `pos`, the `lista` and `votos`
columns, and the derived columns `enteros`, `residuo`, `bancas`. -/
structure Estado where
  pos     : Nat
  lista   : Nat
  votos   : Nat
  enteros : Nat
  residuo : Nat
  bancas  : Int
deriving Repr, DecidableEq

/-- One output row of `repartir_bancas`
(columns `seccion`, `lista`, `bancas`). -/
structure Salida where
  seccion : Nat
  lista   : Nat
  bancas  : Int
deriving Repr, DecidableEq

/-- Stable insertion of an element into a list: `x` is placed before the
first element `y` with `le x y`. -/
def insertar (le : α → α → Bool) (x : α) : List α → List α
  | [] => [x]
  | y :: ys => if le x y then x :: y :: ys else y :: insertar le x ys

/-- Stable insertion sort; models `pandas.sort_values`, whose multi-key
lexsort is stable.  With a `le` that never ties (we break all ties by the
row label `pos`) the output order is uniquely determined. -/
def ordenar (le : α → α → Bool) : List α → List α
  | [] => []
  | x :: xs => insertar le x (ordenar le xs)

/-- Comparison used by `sort_values(["residuo", "votos"],
ascending=False)`: larger `residuo` first, then larger `votos`, ties by
original label ascending (stability of the pandas lexsort). -/
def descLe (a b : Estado) : Bool :=
  Nat.blt b.residuo a.residuo ||
    (b.residuo == a.residuo &&
      (Nat.blt b.votos a.votos || (b.votos == a.votos && Nat.ble a.pos b.pos)))

/-- Comparison used by `sort_values(["residuo", "votos"],
ascending=True)`: smaller `residuo` first, then smaller `votos`, ties by
original label ascending. -/
def ascLe (a b : Estado) : Bool :=
  Nat.blt a.residuo b.residuo ||
    (a.residuo == b.residuo &&
      (Nat.blt a.votos b.votos || (a.votos == b.votos && Nat.ble a.pos b.pos)))

/-- Final `sort_values(["seccion", "lista"])` of
`src/utils/cuociente.py`: ascending on both keys (stable; duplicate keys
cannot arise across different sections). -/
def salidaLe (a b : Salida) : Bool :=
  Nat.blt a.seccion b.seccion ||
    (a.seccion == b.seccion && Nat.ble a.lista b.lista)

/-- Model of `grupo["bancas"].sum()`. -/
def sumBancas (g : List Estado) : Int :=
  (g.map (fun e => e.bancas)).sum

/-- The three assignments
`grupo["enteros"] = votos // q`, `grupo["residuo"] = votos % q`,
`grupo["bancas"] = grupo["enteros"]`. -/
def conCuociente (q : Nat) (g : List Estado) : List Estado :=
  g.map (fun e =>
    { e with enteros := e.votos / q, residuo := e.votos % q,
             bancas := (e.votos / q : Int) })

/-- The remainder step of the main path: `faltan = cargos - sum`; if
`faltan > 0`, the `faltan` rows with largest `(residuo, votos)` among
those with `enteros > 0` each get one extra seat.  (The main path has no
branch for `faltan < 0`.) -/
def ajusteMain (cargos : Nat) (g : List Estado) : List Estado :=
  let faltan : Int := (cargos : Int) - sumBancas g
  if 0 < faltan then
    let elig := g.filter (fun e => 0 < e.enteros)
    if elig.isEmpty then g
    else
      let idx : List Nat := ((ordenar descLe elig).take faltan.toNat).map (fun e => e.pos)
      g.map (fun e => if e.pos ∈ idx then { e with bancas := e.bancas + 1 } else e)
  else g

/-- The adjustment step inside the Art. 110 loop: as `ajusteMain`, plus
the `elif faltan < 0` branch that removes the excess from the
`-faltan` rows with smallest `(residuo, votos)` among those with
`bancas > 0`. -/
def ajusteFull (cargos : Nat) (g : List Estado) : List Estado :=
  let faltan : Int := (cargos : Int) - sumBancas g
  if 0 < faltan then
    let elig := g.filter (fun e => 0 < e.enteros)
    if elig.isEmpty then g
    else
      let idx : List Nat := ((ordenar descLe elig).take faltan.toNat).map (fun e => e.pos)
      g.map (fun e => if e.pos ∈ idx then { e with bancas := e.bancas + 1 } else e)
  else if faltan < 0 then
    let elig := g.filter (fun e => 0 < e.bancas)
    if elig.isEmpty then g
    else
      let idx : List Nat := ((ordenar ascLe elig).take (-faltan).toNat).map (fun e => e.pos)
      g.map (fun e => if e.pos ∈ idx then { e with bancas := e.bancas - 1 } else e)
  else g

/-- The Art. 110 `while grupo["bancas"].sum() == 0` loop (entered when
the main path assigned zero seats), with explicit fuel: each iteration
halves the quotient (keeping it at least 1), recomputes
`enteros`/`residuo`/`bancas` and runs the adjustment step; `none` models
not having terminated within `fuel` iterations. -/
def art110 (cargos : Nat) : Nat → Nat → List Estado → Option (List Estado)
  | 0, _, _ => none
  | fuel + 1, q, g =>
    let q2 := max 1 (q / 2)
    let g2 := ajusteFull cargos (conCuociente q2 g)
    if sumBancas g2 = 0 then art110 cargos fuel q2 g2 else some g2

/-- Model of `grupo["votos"].idxmax()`: the label of the first row holding the
maximal `votos` (pandas `idxmax` returns the first occurrence). -/
def idxmaxVotos : List Estado → Nat
  | [] => 0
  | e :: rest =>
    (rest.foldl (fun mejor x => if mejor.votos < x.votos then x else mejor) e).pos

/-- The final top-up: `faltan = cargos - sum`; if nonzero, the whole
signed shortfall is added to the row `grupo["votos"].idxmax()`. -/
def completarTop (cargos : Nat) (g : List Estado) : List Estado :=
  let faltan : Int := (cargos : Int) - sumBancas g
  if faltan ≠ 0 then
    let top := idxmaxVotos g
    g.map (fun e => if e.pos = top then { e with bancas := e.bancas + faltan } else e)
  else g

/-- The whole per-section body of `repartir_bancas` (identical in
`src/utils/cuociente.py` and `src/utils/reglas_electorales.py`):
initial quotient `max 1 (total_votos // cargos)`, whole quotients,
remainder step, Art. 110 fallback when zero seats were assigned, and the
final top-up. -/
def repartirSeccion (fuel cargos : Nat) (g0 : List Estado) : Option (List Estado) :=
  let total := (g0.map (fun e => e.votos)).sum
  let q := max 1 (total / cargos)
  let g1 := ajusteMain cargos (conCuociente q g0)
  let g2 := if sumBancas g1 = 0 then art110 cargos fuel q g1 else some g1
  g2.map (completarTop cargos)

/-- The rows of `df` belonging to section `s`, with their original row
labels, starting the labelling at `i`; realises one group of
`df.groupby("seccion")` (original order kept inside the group). -/
def grupoDesde (s : Nat) : Nat → List Fila → List Estado
  | _, [] => []
  | i, f :: rest =>
    if f.seccion == s then
      { pos := i, lista := f.lista, votos := f.votos,
        enteros := 0, residuo := 0, bancas := 0 } :: grupoDesde s (i + 1) rest
    else grupoDesde s (i + 1) rest

/-- The group of `df.groupby("seccion")` with key `s`. -/
def grupoDe (df : List Fila) (s : Nat) : List Estado :=
  grupoDesde s 0 df

/-- Model of `grupo["cargos"].iloc[0]`: the `cargos` value of the first row of
section `s` (0 if the section has no row; such a group never arises from
`groupby`). -/
def cargosDe (df : List Fila) (s : Nat) : Nat :=
  match df.filter (fun f => f.seccion == s) with
  | [] => 0
  | f :: _ => f.cargos

/-- The group keys of `df.groupby("seccion")`: distinct section values,
sorted ascending (pandas sorts group keys by default). -/
def seccionesDe (df : List Fila) : List Nat :=
  ordenar Nat.ble ((df.map (fun f => f.seccion)).dedup)

/-- Model of `grupo[["seccion", "lista", "bancas"]]` for the group of section
`s`. -/
def filasSeccion (s : Nat) (g : List Estado) : List Salida :=
  g.map (fun e => { seccion := s, lista := e.lista, bancas := e.bancas })

/-- The `for seccion, grupo in df.groupby("seccion")` loop followed by
`pd.concat(out, ignore_index=True)`: the per-section output frames in
group-key order, concatenated.  If any section diverges the whole call
diverges (`none`). -/
def repartirTodas (fuel : Nat) (df : List Fila) : List Nat → Option (List Salida)
  | [] => some []
  | s :: rest =>
    match repartirSeccion fuel (cargosDe df s) (grupoDe df s),
          repartirTodas fuel df rest with
    | some g, some out => some (filasSeccion s g ++ out)
    | _, _ => none

/-- Model of `repartir_bancas` of `src/utils/reglas_electorales.py`: group by
section, allocate per section, concatenate with a fresh index. -/
def reglasRepartirBancas (fuel : Nat) (df : List Fila) : Option (List Salida) :=
  repartirTodas fuel df (seccionesDe df)

/-- Model of `repartir_bancas` of `src/utils/cuociente.py`: identical to the
`reglas_electorales` version, plus the final
`sort_values(["seccion", "lista"]).reset_index(drop=True)`. -/
def cuocienteRepartirBancas (fuel : Nat) (df : List Fila) : Option (List Salida) :=
  (repartirTodas fuel df (seccionesDe df)).map (ordenar salidaLe)

/-- Python `int(...)` applied to the non-negative products appearing in
`_generar_filas_para_camara`; truncation toward zero coincides with the
floor on non-negative values.  The Python code computes with binary
floats; we model the arithmetic with rationals, which agrees on the
row-structure properties at stake (and exactly on the concrete inputs
used below). -/
def pyInt (x : ℚ) : Int := ⌊x⌋

/-- One iteration of the `for seccion, cargos in secciones.items()` loop
of `_generar_filas_para_camara` (`src/utils/calculos.py`): append one
row per alliance of the section's belief vector, then — if the list
accumulated **across sections so far** is still empty (`if not filas:`,
which inspects the whole accumulator, not the current section's rows) —
append a zero-vote placeholder row (`lista="Ninguna"`, modelled as
alliance `0`). -/
def generarPaso (padronReal : Nat → Nat) (creenciasSeccion : Nat → List (Nat × ℚ))
    (participacion votosValidosPct : ℚ) (filas : List Fila) (sc : Nat × Nat) :
    List Fila :=
  let validos : Int := pyInt ((padronReal sc.1 : ℚ) * participacion * votosValidosPct)
  let filas := filas ++ (creenciasSeccion sc.1).map
    (fun ap => { seccion := sc.1, lista := ap.1,
                 votos := (pyInt ((validos : ℚ) * ap.2 / 100)).toNat,
                 cargos := sc.2 })
  if filas = [] then
    filas ++ [{ seccion := sc.1, lista := 0, votos := 0, cargos := sc.2 }]
  else filas

/-- Model of `_generar_filas_para_camara` of `src/utils/calculos.py`: the section
loop, realised as a left fold of `generarPaso` over the
`seccion ↦ cargos` association list, starting from the empty row
list. -/
def generarFilasParaCamara (secciones : List (Nat × Nat)) (padronReal : Nat → Nat)
    (creenciasSeccion : Nat → List (Nat × ℚ))
    (participacion votosValidosPct : ℚ) : List Fila :=
  secciones.foldl
    (generarPaso padronReal creenciasSeccion participacion votosValidosPct) []

/-- Model of the `cityblock` metric of `scipy.spatial.distance.cdist` on two rows of
equal length (DataFrame rows always have equal length). -/
def cityblock (a b : List Int) : Int :=
  ((a.zip b).map (fun p => |p.1 - p.2|)).sum

/-- The row sum `D.sum(axis=1)` of the pairwise distance matrix, for the
row `fila`: its cityblock distance to every row of `df` (including
itself, contributing 0). -/
def sumaDistancias (df : List (List Int)) (fila : List Int) : Int :=
  (df.map (fun otra => cityblock fila otra)).sum

/-- Model of `np.nanargmin` over `best :: rest` keeping the value rather than the
index: strict `<` on replacement keeps the first minimising element. -/
def medoidAux (f : α → Int) : List α → α → α
  | [], mejor => mejor
  | x :: xs, mejor => medoidAux f xs (if f x < f mejor then x else mejor)

/-- Model of `medoid` of `src/utils/simulacion.py`: the row of `df` minimising the
sum of cityblock distances to all rows, first occurrence on ties
(`np.nanargmin` returns the first minimising index).  The source raises
`ValueError` on an empty frame, modelled as `none`; `fillna(0)` and
`astype(int)` are identities on the integer seat vectors modelled
here. -/
def medoid (df : List (List Int)) : Option (List Int) :=
  match df with
  | [] => none
  | x :: xs => some (medoidAux (sumaDistancias df) xs x)

/-- Row labels of a working frame, in order. -/
def posList (g : List Estado) : List Nat :=
  g.map (fun e => e.pos)

/-- The `(label, votos)` column pair of a working frame, in order; the
steps of `repartir_bancas` never touch these two columns. -/
def pvList (g : List Estado) : List (Nat × Nat) :=
  g.map (fun e => (e.pos, e.votos))

/-- Projection of `idxmax` onto the `(label, votos)` column pair alone; used to
state that the top-up target is already determined by the input rows. -/
def pvIdxmax : List (Nat × Nat) → Nat
  | [] => 0
  | e :: rest => (rest.foldl (fun mejor x => if mejor.2 < x.2 then x else mejor) e).1

/-- Total allocated seats of section `s` in an output frame: the sum of
the `bancas` column over the rows whose `seccion` column equals `s`. -/
def sumSeccion (out : List Salida) (s : Nat) : Int :=
  ((out.filter (fun r => r.seccion == s)).map (fun r => r.bancas)).sum

/-! ## Infrastructure: sorting permutes, the pipeline preserves the
`(pos, votos)` columns, and seat-sum bookkeeping. -/

theorem insertar_perm (le : α → α → Bool) (x : α) (l : List α) :
    (insertar le x l).Perm (x :: l) := by
  induction l with
  | nil => simp [insertar]
  | cons y ys ih =>
    simp only [insertar]
    split
    · exact List.Perm.refl _
    · exact (ih.cons y).trans (List.Perm.swap x y ys)

theorem ordenar_perm (le : α → α → Bool) (l : List α) :
    (ordenar le l).Perm l := by
  induction l with
  | nil => simp [ordenar]
  | cons x xs ih =>
    exact (insertar_perm le x (ordenar le xs)).trans (ih.cons x)

theorem mem_ordenar {le : α → α → Bool} {l : List α} {x : α}
    (h : x ∈ ordenar le l) : x ∈ l :=
  (ordenar_perm le l).mem_iff.mp h

theorem pvList_map_of_preserva {g : List Estado} {f : Estado → Estado}
    (h : ∀ e, ((f e).pos, (f e).votos) = (e.pos, e.votos)) :
    pvList (g.map f) = pvList g := by
  simp only [pvList, List.map_map]
  exact List.map_congr_left (fun e _ => h e)

theorem pvList_conCuociente (q : Nat) (g : List Estado) :
    pvList (conCuociente q g) = pvList g :=
  pvList_map_of_preserva (fun _ => rfl)

theorem pvList_ajusteMain (c : Nat) (g : List Estado) :
    pvList (ajusteMain c g) = pvList g := by
  simp only [ajusteMain]
  split
  · split
    · rfl
    · exact pvList_map_of_preserva (fun e => by split <;> rfl)
  · rfl

theorem pvList_ajusteFull (c : Nat) (g : List Estado) :
    pvList (ajusteFull c g) = pvList g := by
  simp only [ajusteFull]
  split
  · split
    · rfl
    · exact pvList_map_of_preserva (fun e => by split <;> rfl)
  · split
    · split
      · rfl
      · exact pvList_map_of_preserva (fun e => by split <;> rfl)
    · rfl

theorem pvList_completarTop (c : Nat) (g : List Estado) :
    pvList (completarTop c g) = pvList g := by
  simp only [completarTop]
  split
  · exact pvList_map_of_preserva (fun e => by split <;> rfl)
  · rfl

theorem pvList_art110 (c : Nat) :
    ∀ (fuel q : Nat) (g g2 : List Estado),
      art110 c fuel q g = some g2 → pvList g2 = pvList g := by
  intro fuel
  induction fuel with
  | zero => intro q g g2 h; simp [art110] at h
  | succ n ih =>
    intro q g g2 h
    simp only [art110] at h
    split at h
    · exact (ih _ _ _ h).trans
        ((pvList_ajusteFull _ _).trans (pvList_conCuociente _ _))
    · cases h
      exact (pvList_ajusteFull _ _).trans (pvList_conCuociente _ _)

theorem posList_eq_pvList (g : List Estado) :
    posList g = (pvList g).map (fun p => p.1) := by
  simp [posList, pvList, List.map_map]

theorem sumBancas_cons (e : Estado) (t : List Estado) :
    sumBancas (e :: t) = e.bancas + sumBancas t := by
  simp [sumBancas]

theorem map_ite_pos_id {t : List Estado} {p : Nat} {f : Estado → Estado}
    (h : p ∉ posList t) :
    t.map (fun e => if e.pos = p then f e else e) = t := by
  induction t with
  | nil => rfl
  | cons e t ih =>
    simp only [posList, List.map_cons, List.mem_cons, not_or] at h
    rw [List.map_cons, if_neg (Ne.symm h.1), ih (by simpa [posList] using h.2)]

theorem sumBancas_bump_uno {g : List Estado} {p : Nat} (k : Int)
    (hnd : (posList g).Nodup) (hp : p ∈ posList g) :
    sumBancas (g.map (fun e =>
      if e.pos = p then { e with bancas := e.bancas + k } else e)) =
    sumBancas g + k := by
  induction g with
  | nil => simp [posList] at hp
  | cons e t ih =>
    simp only [posList, List.map_cons, List.nodup_cons, List.mem_cons] at hnd hp
    rcases hp with hp | hp
    · rw [List.map_cons, if_pos hp.symm,
        map_ite_pos_id (by simpa [posList, hp] using hnd.1)]
      simp only [sumBancas_cons]
      ring
    · have hne : e.pos ≠ p := fun hh => hnd.1 (hh ▸ hp)
      rw [List.map_cons, if_neg hne, sumBancas_cons, sumBancas_cons,
        ih hnd.2 hp]
      ring

theorem foldl_mejor_mem (pick : Estado → Estado → Estado)
    (hpick : ∀ a x, pick a x = a ∨ pick a x = x) :
    ∀ (rest : List Estado) (acc : Estado), rest.foldl pick acc ∈ acc :: rest := by
  intro rest
  induction rest with
  | nil => intro acc; simp
  | cons x xs ih =>
    intro acc
    rw [List.foldl_cons]
    rcases List.mem_cons.mp (ih (pick acc x)) with h3 | h3
    · rw [h3]
      rcases hpick acc x with h2 | h2 <;> rw [h2] <;>
        simp [List.mem_cons]
    · exact List.mem_cons.mpr (Or.inr (List.mem_cons.mpr (Or.inr h3)))

theorem idxmaxVotos_mem {g : List Estado} (h : g ≠ []) :
    idxmaxVotos g ∈ posList g := by
  match g with
  | e :: rest =>
    have := foldl_mejor_mem
      (fun mejor x => if mejor.votos < x.votos then x else mejor)
      (fun a x => by dsimp only; split <;> simp) rest e
    exact List.mem_map.mpr ⟨_, this, rfl⟩

theorem sumBancas_completarTop {g : List Estado} (c : Nat)
    (hne : g ≠ []) (hnd : (posList g).Nodup) :
    sumBancas (completarTop c g) = c := by
  simp only [completarTop]
  split
  · rw [sumBancas_bump_uno _ hnd (idxmaxVotos_mem hne)]
    ring
  · omega

theorem pvList_repartirSeccion {fuel c : Nat} {g0 g : List Estado}
    (h : repartirSeccion fuel c g0 = some g) :
    pvList g = pvList g0 := by
  simp only [repartirSeccion] at h
  split at h
  · rcases Option.map_eq_some'.mp h with ⟨gm, hm, rfl⟩
    exact (pvList_completarTop _ _).trans
      ((pvList_art110 _ _ _ _ _ hm).trans
        ((pvList_ajusteMain _ _).trans (pvList_conCuociente _ _)))
  · rcases Option.map_eq_some'.mp h with ⟨gm, hm, rfl⟩
    cases hm
    exact (pvList_completarTop _ _).trans
      ((pvList_ajusteMain _ _).trans (pvList_conCuociente _ _))

theorem repartirSeccion_sum {fuel c : Nat} {g0 g : List Estado}
    (h : repartirSeccion fuel c g0 = some g)
    (hne : g0 ≠ []) (hnd : (posList g0).Nodup) :
    sumBancas g = c := by
  simp only [repartirSeccion] at h
  have paraGm : ∀ gm : List Estado, pvList gm = pvList g0 →
      sumBancas (completarTop c gm) = c := by
    intro gm hpv
    have hnegm : gm ≠ [] := by
      intro hnil
      rw [hnil] at hpv
      exact hne (by simpa [pvList] using hpv.symm)
    have hndm : (posList gm).Nodup := by
      rw [posList_eq_pvList, hpv, ← posList_eq_pvList]
      exact hnd
    exact sumBancas_completarTop c hnegm hndm
  split at h
  · rcases Option.map_eq_some'.mp h with ⟨gm, hm, rfl⟩
    exact paraGm gm ((pvList_art110 _ _ _ _ _ hm).trans
      ((pvList_ajusteMain _ _).trans (pvList_conCuociente _ _)))
  · rcases Option.map_eq_some'.mp h with ⟨gm, hm, rfl⟩
    cases hm
    exact paraGm _ ((pvList_ajusteMain _ _).trans (pvList_conCuociente _ _))

/-! ## Infrastructure: groups produced by `groupby("seccion")`. -/

theorem grupoDesde_pos_ge {s : Nat} {df : List Fila} :
    ∀ {i : Nat} {e : Estado}, e ∈ grupoDesde s i df → i ≤ e.pos := by
  induction df with
  | nil => intro i e h; simp [grupoDesde] at h
  | cons f rest ih =>
    intro i e h
    simp only [grupoDesde] at h
    split at h
    · rcases List.mem_cons.mp h with h1 | h1
      · rw [h1]
      · exact Nat.le_of_succ_le (ih h1)
    · exact Nat.le_of_succ_le (ih h)

theorem grupoDesde_nodup (s : Nat) (df : List Fila) :
    ∀ i : Nat, (posList (grupoDesde s i df)).Nodup := by
  induction df with
  | nil => intro i; simp [grupoDesde, posList]
  | cons f rest ih =>
    intro i
    simp only [grupoDesde]
    split
    · refine List.Nodup.cons ?_ (ih (i + 1))
      intro hmem
      rcases List.mem_map.mp hmem with ⟨e, he, hpe⟩
      have h1 := grupoDesde_pos_ge he
      have h2 : e.pos = i := hpe
      omega
    · exact ih (i + 1)

theorem grupoDesde_ne_nil {s : Nat} {df : List Fila}
    (h : ∃ f ∈ df, f.seccion = s) : ∀ i : Nat, grupoDesde s i df ≠ [] := by
  induction df with
  | nil => simp at h
  | cons f rest ih =>
    intro i
    simp only [grupoDesde]
    split
    · simp
    · rename_i hcond
      rcases h with ⟨f2, hf2, hs2⟩
      rcases List.mem_cons.mp hf2 with h1 | h1
      · exact absurd (by simp [h1 ▸ hs2]) hcond
      · exact ih ⟨f2, h1, hs2⟩ (i + 1)

theorem mem_seccionesDe {df : List Fila} {s : Nat} :
    s ∈ seccionesDe df ↔ ∃ f ∈ df, f.seccion = s := by
  rw [seccionesDe, (ordenar_perm _ _).mem_iff, List.mem_dedup]
  constructor
  · intro h
    rcases List.mem_map.mp h with ⟨f, hf, hs⟩
    exact ⟨f, hf, hs⟩
  · intro ⟨f, hf, hs⟩
    exact List.mem_map.mpr ⟨f, hf, hs⟩

theorem seccionesDe_nodup (df : List Fila) : (seccionesDe df).Nodup :=
  ((ordenar_perm _ _).nodup_iff).mpr (List.nodup_dedup _)

theorem filasSeccion_seccion {s : Nat} {g : List Estado} {r : Salida}
    (h : r ∈ filasSeccion s g) : r.seccion = s := by
  rcases List.mem_map.mp h with ⟨e, _, rfl⟩
  rfl

theorem repartirTodas_secciones {fuel : Nat} {df : List Fila} :
    ∀ {sects : List Nat} {out : List Salida},
      repartirTodas fuel df sects = some out →
      ∀ r ∈ out, r.seccion ∈ sects := by
  intro sects
  induction sects with
  | nil =>
    intro out h r hr
    simp only [repartirTodas] at h
    cases h
    simp at hr
  | cons s rest ih =>
    intro out h r hr
    simp only [repartirTodas] at h
    split at h
    · cases h
      rename_i g out2 hg hout2
      rcases List.mem_append.mp hr with h1 | h1
      · exact List.mem_cons.mpr (Or.inl (filasSeccion_seccion h1))
      · exact List.mem_cons.mpr (Or.inr (ih hout2 r h1))
    · cases h

theorem sumSeccion_append (a b : List Salida) (s : Nat) :
    sumSeccion (a ++ b) s = sumSeccion a s + sumSeccion b s := by
  simp [sumSeccion, List.filter_append]

theorem sumSeccion_filasSeccion (s : Nat) (g : List Estado) :
    sumSeccion (filasSeccion s g) s = sumBancas g := by
  rw [sumSeccion, List.filter_eq_self.mpr
    (fun r hr => by simp [filasSeccion_seccion hr])]
  simp [filasSeccion, sumBancas, List.map_map]
  rfl

theorem sumSeccion_eq_zero {out : List Salida} {s : Nat}
    (h : ∀ r ∈ out, r.seccion ≠ s) : sumSeccion out s = 0 := by
  rw [sumSeccion, List.filter_eq_nil_iff.mpr (fun r hr => by simp [h r hr])]
  rfl

theorem sumSeccion_perm {l1 l2 : List Salida} (h : l1.Perm l2) (s : Nat) :
    sumSeccion l1 s = sumSeccion l2 s :=
  ((h.filter _).map _).sum_eq

theorem repartirTodas_sum {fuel : Nat} {df : List Fila} :
    ∀ {sects : List Nat} {out : List Salida},
      repartirTodas fuel df sects = some out →
      sects.Nodup →
      (∀ s ∈ sects, ∃ f ∈ df, f.seccion = s) →
      ∀ s ∈ sects, sumSeccion out s = (cargosDe df s : Int) := by
  intro sects
  induction sects with
  | nil => intro out h _ _ s hs; simp at hs
  | cons s0 rest ih =>
    intro out h hnd hex s hs
    simp only [repartirTodas] at h
    split at h
    · cases h
      rename_i g out2 hg hout2
      rcases List.mem_cons.mp hs with rfl | hsrest
      · rw [sumSeccion_append, sumSeccion_filasSeccion,
          repartirSeccion_sum hg
            (grupoDesde_ne_nil (hex s (List.mem_cons_self _ _)) 0)
            (grupoDesde_nodup s df 0),
          sumSeccion_eq_zero (fun r hr hrs => (List.nodup_cons.mp hnd).1
            (by rw [← hrs]; exact repartirTodas_secciones hout2 r hr))]
        ring
      · have hne : s0 ≠ s := fun heq =>
          (List.nodup_cons.mp hnd).1 (heq ▸ hsrest)
        rw [sumSeccion_append,
          sumSeccion_eq_zero (fun r hr =>
            (filasSeccion_seccion hr) ▸ hne),
          ih hout2 (List.nodup_cons.mp hnd).2
            (fun s2 hs2 => hex s2 (List.mem_cons_of_mem _ hs2)) s hsrest]
        ring
    · cases h

/-! ## Claims about the apportionment invariant and the two copies of
`repartir_bancas`. -/

/-- Claim C1: for every input DataFrame in which each section's row group
is non-empty (automatic: `groupby` keys come from present rows), has a
positive seats-to-allocate value shared by all its rows, and
non-negative integer vote counts (automatic: votes are `Nat`), every
output of `repartir_bancas` (`src/utils/cuociente.py`) gives each
section a seat total exactly equal to that section's `cargos`. -/
theorem C1_suma_bancas_por_seccion (fuel : Nat) (df : List Fila)
    (out : List Salida)
    (hpos : ∀ f ∈ df, 0 < f.cargos)
    (hcomp : ∀ f ∈ df, ∀ f2 ∈ df, f.seccion = f2.seccion → f.cargos = f2.cargos)
    (hout : cuocienteRepartirBancas fuel df = some out) :
    ∀ s ∈ seccionesDe df, sumSeccion out s = (cargosDe df s : Int) := by
  intro s hs
  simp only [cuocienteRepartirBancas] at hout
  rcases Option.map_eq_some'.mp hout with ⟨out0, h0, rfl⟩
  rw [sumSeccion_perm (ordenar_perm salidaLe out0) s]
  exact repartirTodas_sum h0 (seccionesDe_nodup df)
    (fun s2 hs2 => mem_seccionesDe.mp hs2) s hs

/-- Witness for C1 at a concrete two-section DataFrame. -/
theorem C1_suma_bancas_por_seccion_witness :
    (∀ f ∈ [({ seccion := 2, lista := 0, votos := 5, cargos := 2 } : Fila),
            { seccion := 1, lista := 3, votos := 4, cargos := 1 },
            { seccion := 2, lista := 1, votos := 3, cargos := 2 }], 0 < f.cargos) ∧
    (∀ s ∈ seccionesDe [({ seccion := 2, lista := 0, votos := 5, cargos := 2 } : Fila),
            { seccion := 1, lista := 3, votos := 4, cargos := 1 },
            { seccion := 2, lista := 1, votos := 3, cargos := 2 }],
      sumSeccion [({ seccion := 1, lista := 3, bancas := 1 } : Salida),
                  { seccion := 2, lista := 0, bancas := 2 },
                  { seccion := 2, lista := 1, bancas := 0 }] s =
        (cargosDe [({ seccion := 2, lista := 0, votos := 5, cargos := 2 } : Fila),
            { seccion := 1, lista := 3, votos := 4, cargos := 1 },
            { seccion := 2, lista := 1, votos := 3, cargos := 2 }] s : Int)) :=
  ⟨by decide,
   C1_suma_bancas_por_seccion 4 _ _ (by decide) (by decide) (by decide)⟩

/-- Claim C10: the two copies of `repartir_bancas` are equivalent up to
row order and index: on every input DataFrame (and every fuel bound for
the Art. 110 loop) the `cuociente.py` version and the
`reglas_electorales.py` version return the same multiset of
`(seccion, lista, bancas)` rows, or both diverge. -/
theorem C10_equivalencia_multiconjunto (fuel : Nat) (df : List Fila) :
    Option.map (fun l => (l : Multiset Salida)) (cuocienteRepartirBancas fuel df) =
    Option.map (fun l => (l : Multiset Salida)) (reglasRepartirBancas fuel df) := by
  simp only [cuocienteRepartirBancas, reglasRepartirBancas]
  cases h : repartirTodas fuel df (seccionesDe df) with
  | none => rfl
  | some out =>
    simp only [Option.map_some']
    exact congrArg some (Multiset.coe_eq_coe.mpr (ordenar_perm salidaLe out))

/-- Counterexample to Claim C2: on the single-section input with 4 seats
and votes `X=600, Y=300, Z=100`, `repartir_bancas` does **not** return
`X=2, Y=2, Z=0`; the remaining 4th seat goes to `X` (largest remainder
100 among the alliances with a whole quotient), giving `X=3, Y=1, Z=0`.
Sections and alliances are numbered: section `0`, `X=0, Y=1, Z=2`. -/
theorem C2_contraejemplo :
    cuocienteRepartirBancas 1
        [{ seccion := 0, lista := 0, votos := 600, cargos := 4 },
         { seccion := 0, lista := 1, votos := 300, cargos := 4 },
         { seccion := 0, lista := 2, votos := 100, cargos := 4 }] ≠
      some [{ seccion := 0, lista := 0, bancas := 2 },
            { seccion := 0, lista := 1, bancas := 2 },
            { seccion := 0, lista := 2, bancas := 0 }] := by
  decide

/-- Claim C2 as amended: on the single-section input with 4 seats and
votes `X=600, Y=300, Z=100`, `repartir_bancas` returns
`X=3, Y=1, Z=0` — the 4th seat is taken by `X`, the eligible alliance
with the largest remainder (`600 % 250 = 100 > 50 = 300 % 250`). -/
theorem C2_reparto_600_300_100 :
    cuocienteRepartirBancas 1
        [{ seccion := 0, lista := 0, votos := 600, cargos := 4 },
         { seccion := 0, lista := 1, votos := 300, cargos := 4 },
         { seccion := 0, lista := 2, votos := 100, cargos := 4 }] =
      some [{ seccion := 0, lista := 0, bancas := 3 },
            { seccion := 0, lista := 1, bancas := 1 },
            { seccion := 0, lista := 2, bancas := 0 }] := by
  decide

/-- Claim C9: on the single-section input with votes `X=1, Y=1` and 3
seats, the initial quotient is `max 1 (2 // 3) = 1`, each alliance gets
one whole-quotient seat, the missing third seat is assigned by the
`(residuo, votos)` tie-break (both tie at `(0, 1)`, so the stable order
gives it to the first row `X`), and the result sums to exactly 3. -/
theorem C9_caso_1_1_cargos_3 :
    max 1 ((([({ seccion := 0, lista := 0, votos := 1, cargos := 3 } : Fila),
              { seccion := 0, lista := 1, votos := 1, cargos := 3 }].map
        (fun f => f.votos)).sum) / 3) = 1 ∧
    cuocienteRepartirBancas 1
        [{ seccion := 0, lista := 0, votos := 1, cargos := 3 },
         { seccion := 0, lista := 1, votos := 1, cargos := 3 }] =
      some [{ seccion := 0, lista := 0, bancas := 2 },
            { seccion := 0, lista := 1, bancas := 1 }] ∧
    sumSeccion [({ seccion := 0, lista := 0, bancas := 2 } : Salida),
                { seccion := 0, lista := 1, bancas := 1 }] 0 = 3 := by
  refine ⟨by decide, by decide, by decide⟩

theorem repartirSeccion_fallback (fuel c : Nat) (g0 : List Estado)
    (h0 : sumBancas (ajusteMain c
      (conCuociente (max 1 ((g0.map (fun e => e.votos)).sum / c)) g0)) = 0) :
    repartirSeccion fuel c g0 =
      (art110 c fuel (max 1 ((g0.map (fun e => e.votos)).sum / c))
        (ajusteMain c
          (conCuociente (max 1 ((g0.map (fun e => e.votos)).sum / c)) g0))).map
        (completarTop c) := by
  simp only [repartirSeccion, if_pos h0]

theorem art110_diverge_en_cero :
    ∀ fuel q : Nat,
      art110 1 fuel q
        [{ pos := 0, lista := 0, votos := 0, enteros := 0, residuo := 0,
           bancas := 0 }] = none := by
  intro fuel
  induction fuel with
  | zero => intro q; rfl
  | succ n ih =>
    intro q
    have hc : conCuociente (max 1 (q / 2))
        [{ pos := 0, lista := 0, votos := 0, enteros := 0, residuo := 0,
           bancas := 0 }] =
        [{ pos := 0, lista := 0, votos := 0, enteros := 0, residuo := 0,
           bancas := 0 }] := by
      simp [conCuociente]
    simp only [art110, hc]
    rw [show ajusteFull 1
        [{ pos := 0, lista := 0, votos := 0, enteros := 0, residuo := 0,
           bancas := 0 }] =
        [{ pos := 0, lista := 0, votos := 0, enteros := 0, residuo := 0,
           bancas := 0 }] from by decide]
    rw [if_pos (by decide)]
    exact ih (max 1 (q / 2))

/-- Claim C5 fails on the code: on the all-zero single-row input that the
degenerate-belief placeholder produces (one row, `votos = 0`,
`cargos = 1`), the Art. 110 fallback loop of `repartir_bancas` never
terminates — every halving keeps `q = 1`, `0 // q = 0` seats are
assigned, and the `while` condition stays true.  Modelled: the function
returns `none` for every fuel bound. -/
theorem C5_bucle_diverge_en_cero :
    ∀ fuel : Nat,
      reglasRepartirBancas fuel
        [{ seccion := 1, lista := 0, votos := 0, cargos := 1 }] = none := by
  intro fuel
  have hsec : repartirSeccion fuel 1
      [{ pos := 0, lista := 0, votos := 0, enteros := 0, residuo := 0, bancas := 0 }] = none := by
    rw [repartirSeccion_fallback fuel 1 _ (by decide)]
    rw [show max 1 ((List.map (fun e => e.votos) [({ pos := 0, lista := 0, votos := 0, enteros := 0, residuo := 0, bancas := 0 } : Estado)]).sum / 1) = 1 from by decide]
    rw [show ajusteMain 1 (conCuociente 1 [({ pos := 0, lista := 0, votos := 0, enteros := 0, residuo := 0, bancas := 0 } : Estado)]) = [({ pos := 0, lista := 0, votos := 0, enteros := 0, residuo := 0, bancas := 0 } : Estado)] from by decide]
    rw [art110_diverge_en_cero fuel 1]
    rfl
  have hs : seccionesDe [({ seccion := 1, lista := 0, votos := 0, cargos := 1 } : Fila)] = [1] := by decide
  have hg : grupoDe [({ seccion := 1, lista := 0, votos := 0, cargos := 1 } : Fila)] 1 = [{ pos := 0, lista := 0, votos := 0, enteros := 0, residuo := 0, bancas := 0 }] := by decide
  have hcg : cargosDe [({ seccion := 1, lista := 0, votos := 0, cargos := 1 } : Fila)] 1 = 1 := by decide
  show repartirTodas fuel
    [({ seccion := 1, lista := 0, votos := 0, cargos := 1 } : Fila)]
    (seccionesDe [({ seccion := 1, lista := 0, votos := 0, cargos := 1 } : Fila)]) = none
  rw [hs]
  simp only [repartirTodas]
  rw [hg, hcg, hsec]

/-! ## Claim C4: the placeholder row of the row materialiser. -/

theorem generarPaso_ne_nil (pr : Nat → Nat) (cr : Nat → List (Nat × ℚ))
    (p vv : ℚ) (filas : List Fila) (sc : Nat × Nat) :
    generarPaso pr cr p vv filas sc ≠ [] := by
  simp only [generarPaso]
  split
  · simp
  · rename_i h
    exact h

theorem foldl_generarPaso_ne_nil (pr : Nat → Nat) (cr : Nat → List (Nat × ℚ))
    (p vv : ℚ) :
    ∀ (l : List (Nat × Nat)) (acc : List Fila), l ≠ [] →
      l.foldl (generarPaso pr cr p vv) acc ≠ [] := by
  intro l
  induction l with
  | nil => intro acc h; exact absurd rfl h
  | cons sc rest ih =>
    intro acc _
    rw [List.foldl_cons]
    cases rest with
    | nil => exact generarPaso_ne_nil pr cr p vv acc sc
    | cons a b => exact ih _ (by simp)

/-- Counterexample to Claim C4: in a two-section chamber whose first
section has an eligible alliance and whose second section has an empty
normalized belief vector, `_generar_filas_para_camara` emits **no** row
for the second section — the `if not filas:` guard inspects the row list
accumulated across all sections, which is already non-empty.  Sections
`1` (3 seats, alliance `7` at 100%) and `2` (2 seats, no alliance);
electorate 10, turnout and valid-vote rates 1. -/
theorem C4_contraejemplo :
    (generarFilasParaCamara [(1, 3), (2, 2)] (fun _ => 10)
        (fun s => if s = 1 then [(7, 100)] else []) 1 1).filter
      (fun f => f.seccion == 2) = [] := by
  decide

/-- Claim C4 as amended: the zero-vote placeholder is appended only when
the row list accumulated over all sections processed so far is still
empty, so a section with an empty belief vector need not yield a row;
what does hold is that every chamber with at least one section yields a
non-empty row set (each loop iteration leaves the accumulator
non-empty). -/
theorem C4_filas_no_vacias (secciones : List (Nat × Nat)) (pr : Nat → Nat)
    (cr : Nat → List (Nat × ℚ)) (p vv : ℚ) (h : secciones ≠ []) :
    generarFilasParaCamara secciones pr cr p vv ≠ [] :=
  foldl_generarPaso_ne_nil pr cr p vv secciones [] h

/-- Witness for the amended C4 at a one-section chamber with no eligible
alliance: the output is the placeholder row, hence non-empty. -/
theorem C4_filas_no_vacias_witness :
    ([((4 : Nat), (2 : Nat))] ≠ []) ∧
    generarFilasParaCamara [(4, 2)] (fun _ => 0) (fun _ => []) 1 1 ≠ [] :=
  ⟨by decide, C4_filas_no_vacias [(4, 2)] _ _ 1 1 (by decide)⟩

/-! ## Claim C8: the medoid selects the first distance-sum minimiser. -/

theorem medoidAux_spec (f : α → Int) (xs : List α) :
    ∀ mejor : α,
      ∃ pre post, mejor :: xs = pre ++ medoidAux f xs mejor :: post ∧
        (∀ y ∈ mejor :: xs, f (medoidAux f xs mejor) ≤ f y) ∧
        (∀ y ∈ pre, f (medoidAux f xs mejor) < f y) := by
  induction xs with
  | nil =>
    intro mejor
    exact ⟨[], [], rfl, by simp [medoidAux], by simp⟩
  | cons x xs ih =>
    intro mejor
    by_cases hx : f x < f mejor
    · obtain ⟨pre, post, hdec, hmin, hpre⟩ := ih x
      have heq : medoidAux f (x :: xs) mejor = medoidAux f xs x := by
        simp [medoidAux, hx]
      rw [heq]
      refine ⟨mejor :: pre, post, ?_, ?_, ?_⟩
      · rw [List.cons_append, ← hdec]
      · intro y hy
        rcases List.mem_cons.mp hy with rfl | hy2
        · exact le_of_lt (lt_of_le_of_lt (hmin x (by simp)) hx)
        · exact hmin y hy2
      · intro y hy
        rcases List.mem_cons.mp hy with rfl | hy2
        · exact lt_of_le_of_lt (hmin x (by simp)) hx
        · exact hpre y hy2
    · obtain ⟨pre, post, hdec, hmin, hpre⟩ := ih mejor
      have heq : medoidAux f (x :: xs) mejor = medoidAux f xs mejor := by
        simp [medoidAux, hx]
      rw [heq]
      cases pre with
      | nil =>
        have h1 : medoidAux f xs mejor = mejor := by
          have := (List.cons.injEq _ _ _ _).mp hdec.symm
          exact this.1
        refine ⟨[], x :: xs, by rw [List.nil_append, h1], ?_, by simp⟩
        intro y hy
        rcases List.mem_cons.mp hy with rfl | hy2
        · exact hmin y (by simp)
        · rcases List.mem_cons.mp hy2 with rfl | hy3
          · rw [h1]
            exact not_lt.mp hx
          · exact hmin y (by simp [hy3])
      | cons p0 pre2 =>
        have h1 : p0 = mejor ∧ xs = pre2 ++ medoidAux f xs mejor :: post := by
          have := (List.cons.injEq _ _ _ _).mp hdec
          exact ⟨this.1.symm, this.2⟩
        have hmejor : f (medoidAux f xs mejor) < f mejor := by
          have := hpre p0 (by simp)
          rw [h1.1] at this
          exact this
        refine ⟨mejor :: x :: pre2, post, ?_, ?_, ?_⟩
        · rw [List.cons_append, List.cons_append, ← h1.2]
        · intro y hy
          rcases List.mem_cons.mp hy with rfl | hy2
          · exact hmin y (by simp)
          · rcases List.mem_cons.mp hy2 with rfl | hy3
            · exact le_of_lt (lt_of_lt_of_le hmejor (not_lt.mp hx))
            · exact hmin y (by simp [hy3])
        · intro y hy
          rcases List.mem_cons.mp hy with rfl | hy2
          · exact hmejor
          · rcases List.mem_cons.mp hy2 with rfl | hy3
            · exact lt_of_lt_of_le hmejor (not_lt.mp hx)
            · exact hpre y (by simp [h1.1, hy3])

/-- Claim C8: for every non-empty ensemble, `medoid` returns the first
row (in generation order) among those minimising the sum of cityblock
distances to all rows; in particular an ensemble of size 1 yields its
single row unchanged. -/
theorem C8_medoid_primer_minimo (df : List (List Int)) (h : df ≠ []) :
    ∃ pre m post, df = pre ++ m :: post ∧ medoid df = some m ∧
      (∀ y ∈ df, sumaDistancias df m ≤ sumaDistancias df y) ∧
      (∀ y ∈ pre, sumaDistancias df m < sumaDistancias df y) ∧
      (∀ x, df = [x] → medoid df = some x) := by
  match df, h with
  | x :: xs, _ =>
    obtain ⟨pre, post, hdec, hmin, hpre⟩ :=
      medoidAux_spec (sumaDistancias (x :: xs)) xs x
    refine ⟨pre, medoidAux (sumaDistancias (x :: xs)) xs x, post,
      hdec, rfl, hmin, hpre, ?_⟩
    intro y hy
    have h1 : x = y ∧ xs = [] := by
      have := (List.cons.injEq _ _ _ _).mp hy
      exact ⟨this.1, this.2⟩
    rcases h1 with ⟨rfl, rfl⟩
    rfl

/-- Witness for C8 at a concrete three-row ensemble whose medoid is the
second row. -/
theorem C8_medoid_primer_minimo_witness :
    (([[2, 0], [0, 0], [0, 1]] : List (List Int)) ≠ []) ∧
    (∃ pre m post,
      ([[2, 0], [0, 0], [0, 1]] : List (List Int)) = pre ++ m :: post ∧
      medoid [[2, 0], [0, 0], [0, 1]] = some m ∧
      (∀ y ∈ ([[2, 0], [0, 0], [0, 1]] : List (List Int)),
        sumaDistancias [[2, 0], [0, 0], [0, 1]] m ≤
          sumaDistancias [[2, 0], [0, 0], [0, 1]] y) ∧
      (∀ y ∈ pre, sumaDistancias [[2, 0], [0, 0], [0, 1]] m <
          sumaDistancias [[2, 0], [0, 0], [0, 1]] y) ∧
      (∀ x, ([[2, 0], [0, 0], [0, 1]] : List (List Int)) = [x] →
        medoid [[2, 0], [0, 0], [0, 1]] = some x)) :=
  ⟨by decide, C8_medoid_primer_minimo [[2, 0], [0, 0], [0, 1]] (by decide)⟩

/-! ## Claims C6 and C7: non-negativity away from the top-up target, and
remainder seats only for alliances with a whole quotient. -/

theorem eq_de_pos {g : List Estado} (hnd : (posList g).Nodup) :
    ∀ {a b : Estado}, a ∈ g → b ∈ g → a.pos = b.pos → a = b := by
  induction g with
  | nil => intro a b ha; simp at ha
  | cons e t ih =>
    intro a b ha hb hp
    simp only [posList, List.map_cons, List.nodup_cons] at hnd
    rcases List.mem_cons.mp ha with rfl | ha2
    · rcases List.mem_cons.mp hb with rfl | hb2
      · rfl
      · exact absurd (List.mem_map.mpr ⟨b, hb2, hp.symm⟩) hnd.1
    · rcases List.mem_cons.mp hb with rfl | hb2
      · exact absurd (List.mem_map.mpr ⟨a, ha2, hp⟩) hnd.1
      · exact ih hnd.2 ha2 hb2 hp

theorem mem_mapa_condicional {g : List Estado} {p : Estado → Prop}
    [DecidablePred p] {f : Estado → Estado} {e : Estado}
    (he : e ∈ g.map (fun e2 => if p e2 then f e2 else e2)) :
    ∃ e0 ∈ g, (¬ p e0 ∧ e = e0) ∨ (p e0 ∧ e = f e0) := by
  rcases List.mem_map.mp he with ⟨e0, h0, rfl⟩
  by_cases h : p e0
  · exact ⟨e0, h0, Or.inr ⟨h, by rw [if_pos h]⟩⟩
  · exact ⟨e0, h0, Or.inl ⟨h, by rw [if_neg h]⟩⟩

theorem forma_conCuociente {q : Nat} {g : List Estado} {e : Estado}
    (he : e ∈ conCuociente q g) :
    e.bancas = (e.votos / q : Int) ∧ e.enteros = e.votos / q := by
  rcases List.mem_map.mp he with ⟨e0, _, rfl⟩
  exact ⟨rfl, rfl⟩

theorem conCuociente_nonneg {q : Nat} {g : List Estado} :
    ∀ e ∈ conCuociente q g, 0 ≤ e.bancas := by
  intro e he
  rw [(forma_conCuociente he).1]
  exact Int.ofNat_nonneg _

theorem ajusteMain_nonneg {c : Nat} {g : List Estado}
    (h : ∀ e ∈ g, 0 ≤ e.bancas) :
    ∀ e ∈ ajusteMain c g, 0 ≤ e.bancas := by
  intro e he
  simp only [ajusteMain] at he
  split at he
  · split at he
    · exact h e he
    · rcases mem_mapa_condicional he with ⟨e0, h0, hcase⟩
      rcases hcase with ⟨_, heq⟩ | ⟨_, heq⟩
      · rw [heq]; exact h e0 h0
      · rw [heq]
        have := h e0 h0
        show 0 ≤ e0.bancas + 1
        omega
  · exact h e he

theorem ajusteFull_nonneg {c : Nat} {g : List Estado}
    (hnd : (posList g).Nodup) (h : ∀ e ∈ g, 0 ≤ e.bancas) :
    ∀ e ∈ ajusteFull c g, 0 ≤ e.bancas := by
  intro e he
  simp only [ajusteFull] at he
  split at he
  · split at he
    · exact h e he
    · rcases mem_mapa_condicional he with ⟨e0, h0, hcase⟩
      rcases hcase with ⟨_, heq⟩ | ⟨_, heq⟩
      · rw [heq]; exact h e0 h0
      · rw [heq]
        have := h e0 h0
        show 0 ≤ e0.bancas + 1
        omega
  · split at he
    · split at he
      · exact h e he
      · rcases mem_mapa_condicional he with ⟨e0, h0, hcase⟩
        rcases hcase with ⟨_, heq⟩ | ⟨hin, heq⟩
        · rw [heq]; exact h e0 h0
        · rcases List.mem_map.mp hin with ⟨e3, h3, hp3⟩
          have h3o : e3 ∈ g.filter (fun e2 => decide (0 < e2.bancas)) :=
            mem_ordenar (List.mem_of_mem_take h3)
          have h3f := List.mem_filter.mp h3o
          have h3g : e3 ∈ g := h3f.1
          have h3b : 0 < e3.bancas := by simpa using h3f.2
          have he30 : e3 = e0 := eq_de_pos hnd h3g h0 hp3
          rw [he30] at h3b
          rw [heq]
          show 0 ≤ e0.bancas - 1
          omega
    · exact h e he

theorem art110_nonneg {c : Nat} :
    ∀ {fuel q : Nat} {g g2 : List Estado},
      art110 c fuel q g = some g2 → (posList g).Nodup →
      ∀ e ∈ g2, 0 ≤ e.bancas := by
  intro fuel
  induction fuel with
  | zero => intro q g g2 h; simp [art110] at h
  | succ n ih =>
    intro q g g2 h hnd
    have hndc : (posList (ajusteFull c (conCuociente (max 1 (q / 2)) g))).Nodup := by
      rw [posList_eq_pvList, pvList_ajusteFull, pvList_conCuociente,
        ← posList_eq_pvList]
      exact hnd
    simp only [art110] at h
    split at h
    · exact ih h hndc
    · cases h
      exact ajusteFull_nonneg
        (by rw [posList_eq_pvList, pvList_conCuociente, ← posList_eq_pvList]
            exact hnd)
        conCuociente_nonneg

theorem foldl_mejor_pv :
    ∀ (rest : List Estado) (acc : Estado),
      ((rest.foldl (fun mejor x => if mejor.votos < x.votos then x else mejor)
          acc).pos,
       (rest.foldl (fun mejor x => if mejor.votos < x.votos then x else mejor)
          acc).votos) =
      (rest.map (fun e => (e.pos, e.votos))).foldl
        (fun mejor x => if mejor.2 < x.2 then x else mejor)
        (acc.pos, acc.votos) := by
  intro rest
  induction rest with
  | nil => intro acc; rfl
  | cons x xs ih =>
    intro acc
    rw [List.map_cons, List.foldl_cons, List.foldl_cons]
    by_cases hv : acc.votos < x.votos
    · rw [if_pos hv, if_pos (by exact hv), ih x]
    · rw [if_neg hv, if_neg (by exact hv), ih acc]

theorem idxmaxVotos_pv (g : List Estado) :
    idxmaxVotos g = pvIdxmax (pvList g) := by
  cases g with
  | nil => rfl
  | cons e rest =>
    show (rest.foldl (fun mejor x => if mejor.votos < x.votos then x else mejor)
        e).pos = pvIdxmax (pvList (e :: rest))
    have h := foldl_mejor_pv rest e
    simp only [pvList, List.map_cons, pvIdxmax]
    exact congrArg Prod.fst h

theorem idxmaxVotos_de_pv {g1 g2 : List Estado} (h : pvList g1 = pvList g2) :
    idxmaxVotos g1 = idxmaxVotos g2 := by
  rw [idxmaxVotos_pv, idxmaxVotos_pv, h]

theorem completarTop_fuera_del_top {c : Nat} {g : List Estado} {e : Estado}
    (he : e ∈ completarTop c g) (hne : e.pos ≠ idxmaxVotos g) : e ∈ g := by
  simp only [completarTop] at he
  split at he
  · rcases mem_mapa_condicional he with ⟨e0, h0, hcase⟩
    rcases hcase with ⟨_, heq⟩ | ⟨htop, heq⟩
    · rw [heq]; exact h0
    · rw [heq] at hne
      exact absurd htop hne
  · exact he

/-- Counterexample to Claim C6: on the single-section input with one
seat and three alliances of 2 votes each (`cargos = 1`), the Art. 110
fallback over-assigns, the trim leaves one seat per alliance, and the
final top-up adds the shortfall `1 - 3 = -2` to the first (highest-vote)
alliance, driving its seat count to `-1`: the output contains a negative
per-alliance seat count. -/
theorem C6_contraejemplo :
    cuocienteRepartirBancas 8
        [{ seccion := 0, lista := 0, votos := 2, cargos := 1 },
         { seccion := 0, lista := 1, votos := 2, cargos := 1 },
         { seccion := 0, lista := 2, votos := 2, cargos := 1 }] =
      some [{ seccion := 0, lista := 0, bancas := -1 },
            { seccion := 0, lista := 1, bancas := 1 },
            { seccion := 0, lista := 2, bancas := 1 }] ∧
    ∃ r ∈ [({ seccion := 0, lista := 0, bancas := -1 } : Salida),
           { seccion := 0, lista := 1, bancas := 1 },
           { seccion := 0, lista := 2, bancas := 1 }], r.bancas < 0 := by
  refine ⟨by decide, by decide⟩

/-- Claim C6 as amended: for every per-section input with distinct row
labels, every row of the output of the per-section allocation **other
than the top-up target** (the first row holding the maximal vote count,
`idxmax`) has a non-negative seat count; only that one alliance can be
driven below zero by the final top-up (and the counterexample shows it
can be). -/
theorem C6_no_negativo_salvo_top (fuel c : Nat) (g0 g : List Estado)
    (hnd : (posList g0).Nodup)
    (h : repartirSeccion fuel c g0 = some g) :
    ∀ e ∈ g, e.pos ≠ idxmaxVotos g0 → 0 ≤ e.bancas := by
  intro e he hne
  simp only [repartirSeccion] at h
  have paraGm : ∀ gm : List Estado, pvList gm = pvList g0 →
      (∀ e2 ∈ gm, 0 ≤ e2.bancas) →
      completarTop c gm = g → 0 ≤ e.bancas := by
    intro gm hpv hnn hcg
    have htopeq : idxmaxVotos gm = idxmaxVotos g0 := idxmaxVotos_de_pv hpv
    have hmem : e ∈ gm := by
      refine completarTop_fuera_del_top (hcg ▸ he) ?_
      rw [htopeq]
      exact hne
    exact hnn e hmem
  have hnd1 : (posList (ajusteMain c
      (conCuociente (max 1 ((g0.map (fun e => e.votos)).sum / c)) g0))).Nodup := by
    rw [posList_eq_pvList, pvList_ajusteMain, pvList_conCuociente,
      ← posList_eq_pvList]
    exact hnd
  split at h
  · rcases Option.map_eq_some'.mp h with ⟨gm, hm, hcg⟩
    exact paraGm gm
      ((pvList_art110 _ _ _ _ _ hm).trans
        ((pvList_ajusteMain _ _).trans (pvList_conCuociente _ _)))
      (art110_nonneg hm hnd1) hcg
  · rcases Option.map_eq_some'.mp h with ⟨gm, hm, hcg⟩
    cases hm
    exact paraGm _
      ((pvList_ajusteMain _ _).trans (pvList_conCuociente _ _))
      (ajusteMain_nonneg conCuociente_nonneg) hcg

/-- Witness for the amended C6 at the counterexample input: every row
except the first (the `idxmax` target, label 0) ends non-negative. -/
theorem C6_no_negativo_salvo_top_witness :
    (posList [({ pos := 0, lista := 0, votos := 2, enteros := 0, residuo := 0, bancas := 0 } : Estado),
              { pos := 1, lista := 1, votos := 2, enteros := 0, residuo := 0, bancas := 0 },
              { pos := 2, lista := 2, votos := 2, enteros := 0, residuo := 0, bancas := 0 }]).Nodup ∧
    (∀ e ∈ [({ pos := 0, lista := 0, votos := 2, enteros := 2, residuo := 0, bancas := -1 } : Estado),
            { pos := 1, lista := 1, votos := 2, enteros := 2, residuo := 0, bancas := 1 },
            { pos := 2, lista := 2, votos := 2, enteros := 2, residuo := 0, bancas := 1 }],
      e.pos ≠ idxmaxVotos [({ pos := 0, lista := 0, votos := 2, enteros := 0, residuo := 0, bancas := 0 } : Estado),
              { pos := 1, lista := 1, votos := 2, enteros := 0, residuo := 0, bancas := 0 },
              { pos := 2, lista := 2, votos := 2, enteros := 0, residuo := 0, bancas := 0 }] →
        0 ≤ e.bancas) :=
  ⟨by decide,
   C6_no_negativo_salvo_top 8 1 _ _ (by decide) (by decide)⟩

/-- Claim C7: in the remainder-distribution step run on the
whole-quotient state (the main path before any halving fallback, with
any quotient `q`, in particular `q0`), every row whose seat count
exceeds its whole quotient `votos / q` has at least one whole quotient:
the eligibility filter `enteros > 0` guards every `+1`. -/
theorem C7_restos_requieren_cuociente (c q : Nat) (g0 : List Estado)
    (e : Estado) (hnd : (posList g0).Nodup)
    (he : e ∈ ajusteMain c (conCuociente q g0))
    (hx : ((e.votos / q : Nat) : Int) < e.bancas) :
    1 ≤ e.votos / q := by
  have hndq : (posList (conCuociente q g0)).Nodup := by
    rw [posList_eq_pvList, pvList_conCuociente, ← posList_eq_pvList]
    exact hnd
  simp only [ajusteMain] at he
  split at he
  · split at he
    · rw [(forma_conCuociente he).1] at hx
      exact absurd hx (lt_irrefl _)
    · rcases mem_mapa_condicional he with ⟨e0, h0, hcase⟩
      rcases hcase with ⟨_, heq⟩ | ⟨hin, heq⟩
      · rw [heq, (forma_conCuociente h0).1] at hx
        exact absurd hx (lt_irrefl _)
      · rcases List.mem_map.mp hin with ⟨e3, h3, hp3⟩
        have h3o : e3 ∈ (conCuociente q g0).filter
            (fun e2 => decide (0 < e2.enteros)) :=
          mem_ordenar (List.mem_of_mem_take h3)
        have h3f := List.mem_filter.mp h3o
        have h3ent : 0 < e3.enteros := by simpa using h3f.2
        have h30 : e3 = e0 := eq_de_pos hndq h3f.1 h0 hp3
        have hsh := forma_conCuociente h0
        rw [h30, hsh.2] at h3ent
        rw [heq]
        show 1 ≤ e0.votos / q
        omega
  · rw [(forma_conCuociente he).1] at hx
    exact absurd hx (lt_irrefl _)

/-- Witness for C7 at the 600/300/100 example with `q = 250`,
`cargos = 4`: the first row ends with 3 seats, one more than its 2 whole
quotients, and indeed has `600 / 250 = 2 ≥ 1` whole quotients. -/
theorem C7_restos_requieren_cuociente_witness :
    (posList [({ pos := 0, lista := 0, votos := 600, enteros := 0, residuo := 0, bancas := 0 } : Estado),
              { pos := 1, lista := 1, votos := 300, enteros := 0, residuo := 0, bancas := 0 },
              { pos := 2, lista := 2, votos := 100, enteros := 0, residuo := 0, bancas := 0 }]).Nodup ∧
    ({ pos := 0, lista := 0, votos := 600, enteros := 2, residuo := 100, bancas := 3 } : Estado) ∈
      ajusteMain 4 (conCuociente 250
        [({ pos := 0, lista := 0, votos := 600, enteros := 0, residuo := 0, bancas := 0 } : Estado),
         { pos := 1, lista := 1, votos := 300, enteros := 0, residuo := 0, bancas := 0 },
         { pos := 2, lista := 2, votos := 100, enteros := 0, residuo := 0, bancas := 0 }]) ∧
    1 ≤ ({ pos := 0, lista := 0, votos := 600, enteros := 2, residuo := 100, bancas := 3 } : Estado).votos / 250 :=
  ⟨by decide, by decide,
   C7_restos_requieren_cuociente 4 250
     [({ pos := 0, lista := 0, votos := 600, enteros := 0, residuo := 0, bancas := 0 } : Estado),
      { pos := 1, lista := 1, votos := 300, enteros := 0, residuo := 0, bancas := 0 },
      { pos := 2, lista := 2, votos := 100, enteros := 0, residuo := 0, bancas := 0 }]
     { pos := 0, lista := 0, votos := 600, enteros := 2, residuo := 100, bancas := 3 }
     (by decide) (by decide) (by decide)⟩

/-! ## Claim C3: monotonicity fails in general; it holds for
single-alliance sections. -/

theorem repartirSeccion_def (fuel c : Nat) (g0 : List Estado) :
    repartirSeccion fuel c g0 =
      (if sumBancas (ajusteMain c (conCuociente
            (max 1 ((g0.map (fun e => e.votos)).sum / c)) g0)) = 0
       then art110 c fuel (max 1 ((g0.map (fun e => e.votos)).sum / c))
         (ajusteMain c (conCuociente
           (max 1 ((g0.map (fun e => e.votos)).sum / c)) g0))
       else some (ajusteMain c (conCuociente
         (max 1 ((g0.map (fun e => e.votos)).sum / c)) g0))).map
        (completarTop c) := rfl

theorem completarTop_singleton (c : Nat) (e : Estado) :
    completarTop c [e] = [{ e with bancas := (c : Int) }] := by
  simp only [completarTop]
  split
  · rename_i h
    have htop : e.pos = idxmaxVotos [e] := rfl
    rw [List.map_cons, List.map_nil, if_pos htop,
      show sumBancas [e] = e.bancas from by simp [sumBancas],
      show e.bancas + ((c : Int) - e.bancas) = (c : Int) from by ring]
  · rename_i h
    have h0 : (c : Int) - sumBancas [e] = 0 := not_not.mp h
    have hb : e.bancas = (c : Int) := by
      have : sumBancas [e] = e.bancas := by simp [sumBancas]
      omega
    rw [← hb]

theorem ajusteMain_singleton (c : Nat) (e : Estado) :
    ajusteMain c [e] = [e] ∨
    ajusteMain c [e] = [{ e with bancas := e.bancas + 1 }] := by
  simp only [ajusteMain]
  split
  · rename_i hf
    by_cases hp : 0 < e.enteros
    · rw [show List.filter (fun e2 => decide (0 < e2.enteros)) [e] = [e] from
        by simp [hp]]
      rw [if_neg (by simp)]
      have ht : (((c : Int) - sumBancas [e]).toNat) =
          ((c : Int) - sumBancas [e]).toNat - 1 + 1 := by omega
      rw [show ordenar descLe [e] = [e] from rfl, ht, List.take_succ_cons,
        List.take_nil]
      rw [List.map_cons, List.map_nil, List.map_cons, List.map_nil,
        if_pos (by simp : e.pos ∈ [e.pos])]
      exact Or.inr rfl
    · rw [show List.filter (fun e2 => decide (0 < e2.enteros)) [e] = [] from
        by simp [hp]]
      rw [if_pos (by simp)]
      exact Or.inl rfl
  · exact Or.inl rfl

theorem repartirSeccion_unitaria (fuel c p l v : Nat) (hv : 0 < v) :
    ∃ e1 : Estado,
      repartirSeccion fuel c
        [{ pos := p, lista := l, votos := v, enteros := 0, residuo := 0,
           bancas := 0 }] = some [e1] ∧ e1.bancas = (c : Int) := by
  have hQpos : 0 < max 1 (v / c) :=
    lt_of_lt_of_le Nat.zero_lt_one (Nat.le_max_left _ _)
  have hQle : max 1 (v / c) ≤ v := Nat.max_le.mpr ⟨hv, Nat.div_le_self v c⟩
  have hdiv : 1 ≤ v / max 1 (v / c) := (Nat.one_le_div_iff hQpos).mpr hQle
  rw [repartirSeccion_def]
  rw [show (List.map (fun e => e.votos)
      [({ pos := p, lista := l, votos := v, enteros := 0, residuo := 0, bancas := 0 } : Estado)]).sum = v from by simp]
  rw [show conCuociente (max 1 (v / c))
      [({ pos := p, lista := l, votos := v, enteros := 0, residuo := 0, bancas := 0 } : Estado)] =
      [({ pos := p, lista := l, votos := v, enteros := v / max 1 (v / c), residuo := v % max 1 (v / c), bancas := ((v / max 1 (v / c) : Nat) : Int) } : Estado)] from
    by simp [conCuociente]]
  rcases ajusteMain_singleton c
      ({ pos := p, lista := l, votos := v, enteros := v / max 1 (v / c), residuo := v % max 1 (v / c), bancas := ((v / max 1 (v / c) : Nat) : Int) } : Estado) with
    hA | hA <;> rw [hA]
  · rw [if_neg (by simp only [sumBancas, List.map_cons, List.map_nil,
      List.sum_cons, List.sum_nil]; omega)]
    rw [Option.map_some', completarTop_singleton]
    exact ⟨_, rfl, rfl⟩
  · rw [if_neg (by simp only [sumBancas, List.map_cons, List.map_nil,
      List.sum_cons, List.sum_nil]; omega)]
    rw [Option.map_some', completarTop_singleton]
    exact ⟨_, rfl, rfl⟩

/-- Counterexample to Claim C3: apportionment is **not** monotonic in
votes.  Single section, 3 seats, votes `(2, 2)`: seats `(1, 2)` — the
over-assignment `faltan = 3 - 4 = -1` lands on the first row, the
`idxmax` of the vote tie.  Raising the second alliance to 3 votes makes
it the unique `idxmax`, so it now absorbs `faltan = 3 - 5 = -2` and its
seats drop from 2 to 1. -/
theorem C3_contraejemplo :
    cuocienteRepartirBancas 1
        [{ seccion := 0, lista := 0, votos := 2, cargos := 3 },
         { seccion := 0, lista := 1, votos := 2, cargos := 3 }] =
      some [{ seccion := 0, lista := 0, bancas := 1 },
            { seccion := 0, lista := 1, bancas := 2 }] ∧
    cuocienteRepartirBancas 1
        [{ seccion := 0, lista := 0, votos := 2, cargos := 3 },
         { seccion := 0, lista := 1, votos := 3, cargos := 3 }] =
      some [{ seccion := 0, lista := 0, bancas := 2 },
            { seccion := 0, lista := 1, bancas := 1 }] := by
  refine ⟨by decide, by decide⟩

/-- Claim C3 as amended: vote monotonicity fails in general (see the
counterexample), but holds for single-alliance sections: with one
alliance, positive votes and positive seats-to-allocate, the alliance
always receives exactly the seats-to-allocate, before and after any
vote increase, so its seats never decrease. -/
theorem C3_monotonia_una_lista (fuel c v d p l : Nat)
    (hc : 0 < c) (hv : 0 < v) :
    ∃ e1 e2 : Estado,
      repartirSeccion fuel c
        [{ pos := p, lista := l, votos := v, enteros := 0, residuo := 0,
           bancas := 0 }] = some [e1] ∧
      repartirSeccion fuel c
        [{ pos := p, lista := l, votos := v + d, enteros := 0, residuo := 0,
           bancas := 0 }] = some [e2] ∧
      e1.bancas = (c : Int) ∧ e2.bancas = (c : Int) ∧ e1.bancas ≤ e2.bancas := by
  obtain ⟨e1, h1, hb1⟩ := repartirSeccion_unitaria fuel c p l v hv
  obtain ⟨e2, h2, hb2⟩ := repartirSeccion_unitaria fuel c p l (v + d) (by omega)
  exact ⟨e1, e2, h1, h2, hb1, hb2, by rw [hb1, hb2]⟩

/-- Witness for the amended C3: one alliance, 1 vote raised by 3, two
seats to allocate — the alliance keeps both seats. -/
theorem C3_monotonia_una_lista_witness :
    (0 < 2 ∧ 0 < 1) ∧
    (∃ e1 e2 : Estado,
      repartirSeccion 1 2
        [{ pos := 0, lista := 5, votos := 1, enteros := 0, residuo := 0,
           bancas := 0 }] = some [e1] ∧
      repartirSeccion 1 2
        [{ pos := 0, lista := 5, votos := 1 + 3, enteros := 0, residuo := 0,
           bancas := 0 }] = some [e2] ∧
      e1.bancas = (2 : Int) ∧ e2.bancas = (2 : Int) ∧ e1.bancas ≤ e2.bancas) :=
  ⟨⟨by decide, by decide⟩,
   C3_monotonia_una_lista 1 2 1 3 0 5 (by decide) (by decide)⟩
